import Mathlib

/-!
# Verification of the gerrit-commit-extractor pipeline

Shallow embedding of the three source modules of the repository:

* `config.ts` / the credentials loader (`getGerritCredentials`),
* `gerritApi.ts` (`fetchMergedChanges` and its pagination loop),
* `index.ts` (the sort / Markdown rendering step of `main`).

The source is JavaScript/TypeScript, so the string primitives it uses
(`String.prototype.startsWith`, `split`, `trim`, `substring`, ...) are
modelled here as executable functions over the character list `String.data`,
with JavaScript semantics.  Environment-dependent inputs (file existence,
file contents, URL-hostname parsing, the wall clock, `Date` parsing and
locale formatting) are passed in as explicit parameters, because the code
obtains them from the runtime.  Network interaction is modelled by giving
the fetch loop the list of responses the server would produce, one per
issued request, in order.
-/

/-! ## JavaScript string primitives, modelled on character lists -/

/-- JS `s.startsWith(pre)`. -/
def jsStartsWith (s pre : String) : Bool :=
  pre.data.isPrefixOf s.data

/-- JS `s.endsWith(suf)`. -/
def jsEndsWith (s suf : String) : Bool :=
  suf.data.isSuffixOf s.data

/-- JS `s.substring(n)` (drop the first `n` UTF-16 units; all inputs in this
program are ASCII so units coincide with characters). -/
def jsSubstring (s : String) (n : Nat) : String :=
  ⟨s.data.drop n⟩

/-- Splitter for JS `s.split(sep)` with a one-character separator: `acc`
holds the (reversed) characters of the current field. -/
def jsSplitAux (sep : Char) : List Char → List Char → List String
  | [], acc => [⟨acc.reverse⟩]
  | c :: cs, acc =>
    if c = sep then ⟨acc.reverse⟩ :: jsSplitAux sep cs []
    else jsSplitAux sep cs (c :: acc)

/-- JS `s.split(sep)` for a one-character separator (the program only splits
on `"\n"`, `"\t"` and `"="`).  `"".split(sep)` gives `[""]`, as in JS. -/
def jsSplit (s : String) (sep : Char) : List String :=
  jsSplitAux sep s.data []

/-- JS `s.trim()`: strip whitespace from both ends. -/
def jsTrim (s : String) : String :=
  ⟨((s.data.dropWhile Char.isWhitespace).reverse.dropWhile Char.isWhitespace).reverse⟩

/-- Substring occurrence test (used to state that error messages *contain*
the target host / the example record line). -/
def strContainsAux (pat : List Char) : List Char → Bool
  | [] => pat.isEmpty
  | c :: cs => pat.isPrefixOf (c :: cs) || strContainsAux pat cs

/-- `strContains s pat` holds iff `pat` occurs contiguously inside `s`. -/
def strContains (s pat : String) : Bool :=
  strContainsAux pat.data s.data

/-! ## Data model (`gerritApi.ts` interfaces) -/

/-- `CommitInfo` from gerritApi.ts. -/
structure CommitInfo where
  commit : String
  subject : String
  message : String
deriving DecidableEq

/-- `RevisionInfo` from gerritApi.ts; `commit` is optional. -/
structure RevisionInfo where
  commit : Option CommitInfo
deriving DecidableEq

/-- `ChangeInfo` from gerritApi.ts.  The JS map `revisions` (keyed by
revision SHA) is modelled as an association list; `revisions` and
`current_revision` are optional exactly as in the interface. -/
structure ChangeInfo where
  id : String
  project : String
  branch : String
  change_id : String
  subject : String
  status : String
  submitted : String
  revisions : Option (List (String × RevisionInfo))
  current_revision : Option String
deriving DecidableEq

/-- The selected credential (`{username, httpPassword}` in config.ts). -/
structure Credential where
  username : String
  httpPassword : String
deriving DecidableEq

/-! ## Credential loader (`getGerritCredentials` in config.ts) -/

/-- Host-matching rule, config.ts lines 47-48, verbatim:
a leading-dot pattern matches when the host ends with the pattern or equals
the pattern with the dot stripped; otherwise exact equality is required. -/
def hostMatches (domainInCookie targetHost : String) : Bool :=
  (jsStartsWith domainInCookie "." &&
      (jsEndsWith targetHost domainInCookie ||
        targetHost == jsSubstring domainInCookie 1)) ||
    (!jsStartsWith domainInCookie "." && targetHost == domainInCookie)

/-- The §4.1 selection rule as the specification words it (used to compare
the code's `hostMatches` against the spec). -/
def domainMatchesSpec (pattern targetHost : String) : Bool :=
  if jsStartsWith pattern "." then
    targetHost == jsSubstring pattern 1 || jsEndsWith targetHost pattern
  else
    targetHost == pattern

/-- One iteration of the loader's line loop (config.ts lines 32-56): the
credential this line yields, or `none` when the loop would `continue`.
JS `cookieValue.split('=', 2)` keeps only the first two fields of the full
split, and the destructured `username`/`password` are then checked for
truthiness (absent or empty strings are skipped). -/
def lineCredential (targetHost line : String) : Option Credential :=
  if jsStartsWith line "#" || jsTrim line == "" then none
  else
    let parts := jsSplit line '\t'
    if parts.length != 7 then none
    else
      let domainInCookie := parts.getD 0 ""
      let cookieName := parts.getD 5 ""
      let cookieValue := parts.getD 6 ""
      if hostMatches domainInCookie targetHost && cookieName == "o" then
        let segs := jsSplit cookieValue '='
        let username := segs.getD 0 ""
        let password := segs.getD 1 ""
        if username != "" && password != "" then some ⟨username, password⟩
        else none
      else none

/-- The loader's `for (const line of lines)` loop: first line that yields a
credential wins. -/
def findCredential (targetHost : String) : List String → Option Credential
  | [] => none
  | line :: rest =>
    match lineCredential targetHost line with
    | some cred => some cred
    | none => findCredential targetHost rest

/-- The example record shape shown in the loader's error messages. -/
def exampleLine (targetHost : String) : String :=
  targetHost ++ "\tTRUE\t/\tTRUE\t<timestamp>\to\t<username>=<password>"

/-- Error message for an unparsable server URL (config.ts line 19). -/
def invalidUrlMsg (gerritServerUrl : String) : String :=
  "Invalid GERRIT_SERVER_URL format: " ++ gerritServerUrl ++ ". Cannot parse hostname."

/-- Error message for a missing secrets file (config.ts lines 23-26). -/
def missingFileMsg (gitcookiesPath targetHost : String) : String :=
  "Error: .gitcookies file not found at " ++ gitcookiesPath ++
    ".\nPlease ensure it exists and is configured for your Gerrit server.\nExample line for " ++
    targetHost ++ (":\n" ++ exampleLine targetHost)

/-- Error message when no record matches (config.ts lines 58-59). -/
def notFoundMsg (targetHost gerritServerUrl gitcookiesPath : String) : String :=
  "Credentials for " ++ targetHost ++ (" (from " ++ gerritServerUrl) ++
    (") not found in " ++ gitcookiesPath) ++
    " with cookie name \x27o\x27.\nEnsure a line exists like: " ++ exampleLine targetHost

/-- `getGerritCredentials` (config.ts).  The runtime inputs are explicit:
`parsedHostname` is the result of `new URL(url).hostname` (`none` when the
constructor throws), `gitcookiesExists` is `fs.existsSync`, and
`gitcookiesContent` is the file text. -/
def getGerritCredentials (gerritServerUrl : String) (parsedHostname : Option String)
    (gitcookiesPath : String) (gitcookiesExists : Bool) (gitcookiesContent : String) :
    Except String Credential :=
  match parsedHostname with
  | none => Except.error (invalidUrlMsg gerritServerUrl)
  | some targetHost =>
    if !gitcookiesExists then
      Except.error (missingFileMsg gitcookiesPath targetHost)
    else
      match findCredential targetHost (jsSplit gitcookiesContent '\n') with
      | some cred => Except.ok cred
      | none => Except.error (notFoundMsg targetHost gerritServerUrl gitcookiesPath)

/-! ## Change fetcher (`fetchMergedChanges` in gerritApi.ts) -/

/-- One server response to a page request: a decoded page of changes, or a
non-success HTTP status with its status text and body text. -/
inductive PageResp where
  | ok (changes : List ChangeInfo)
  | err (status : Nat) (statusText : String) (body : String)
deriving DecidableEq

/-- The error thrown on a non-success HTTP status (gerritApi.ts line 80);
it carries the status code, status text and response body text. -/
structure GerritApiError where
  status : Nat
  statusText : String
  body : String
deriving DecidableEq

/-- Observable outcome of one `fetchMergedChanges` call: `trace` has one
entry per issued request, recording the `S` pagination parameter sent and
the length of `allChanges` at that moment; `result` is the returned change
list or the thrown error (which carries no changes). -/
structure FetchOutcome where
  trace : List (Nat × Nat)
  result : Except GerritApiError (List ChangeInfo)

/-- The `while (hasMore)` pagination loop of `fetchMergedChanges`
(gerritApi.ts lines 56-118), one recursive step per issued request.
`responses` are the server's replies in order; `none` means the loop would
issue a request the given response list does not answer.  Mirrors the
source: a non-ok status throws immediately; otherwise the page is appended
and `start` advanced when non-empty, and `hasMore` is
`changes.length === API_FETCH_LIMIT`, forced to false on an empty first
response (`changes.length === 0 && start === 0`). -/
def fetchGo (limit : Nat) : List PageResp → List ChangeInfo → Nat → Option FetchOutcome
  | [], _, _ => none
  | PageResp.err status statusText body :: _, allChanges, start =>
    some ⟨[(start, allChanges.length)], Except.error ⟨status, statusText, body⟩⟩
  | PageResp.ok changes :: rest, allChanges, start =>
    let allChanges2 := if 0 < changes.length then allChanges ++ changes else allChanges
    let start2 := if 0 < changes.length then start + changes.length else start
    let hasMore : Bool :=
      if changes.length == 0 && start == 0 then false else changes.length == limit
    if hasMore then
      match fetchGo limit rest allChanges2 start2 with
      | none => none
      | some out => some ⟨(start, allChanges.length) :: out.trace, out.result⟩
    else
      some ⟨[(start, allChanges.length)], Except.ok allChanges2⟩

/-- `fetchMergedChanges`: run the pagination loop from an empty accumulator
and offset 0 against the given server responses. -/
def fetchMergedChanges (limit : Nat) (responses : List PageResp) : Option FetchOutcome :=
  fetchGo limit responses [] 0

/-- The anti-sniffing marker test string of gerritApi.ts line 86:
`)]}'` followed by a newline. -/
def xssiMarked (rawText : String) : Bool :=
  jsStartsWith rawText ")]\x7d\x27\n"

/-- Response-body decoding step (gerritApi.ts line 86): when the body starts
with `)]}'` + newline, drop the first 4 characters (the 4-byte marker)
before `JSON.parse`; otherwise parse the body unchanged. -/
def stripXssi (rawText : String) : String :=
  if xssiMarked rawText then jsSubstring rawText 4 else rawText

/-! ## Sort and renderer (`main` in index.ts) -/

/-- Insert `x` into `l` for the stable descending sort: `x` goes after every
element with a strictly larger key and before the first element whose key is
`≤` its own (so, among equal keys, earlier-inserted elements stay first). -/
def insertDesc {α : Type} (t : α → Int) (x : α) : List α → List α
  | [] => [x]
  | y :: ys => if t y ≤ t x then x :: y :: ys else y :: insertDesc t x ys

/-- Stable sort, descending by the integer key `t`.  `Array.prototype.sort`
with comparator `(a, b) => t(b) - t(a)` is specified (ES2019+) to be a
stable sort for this total preorder, and a stable sorted reordering is
unique, so this insertion sort computes the same list. -/
def stableSortDesc {α : Type} (t : α → Int) : List α → List α
  | [] => []
  | x :: xs => insertDesc t x (stableSortDesc t xs)

/-- The sort of index.ts line 49:
`mergedChanges.sort((a, b) => new Date(b.submitted).getTime() - new Date(a.submitted).getTime())`;
`getTime` is the `Date`-parsing function of the runtime, passed explicitly. -/
def sortChanges (getTime : String → Int) (mergedChanges : List ChangeInfo) : List ChangeInfo :=
  stableSortDesc (fun c => getTime c.submitted) mergedChanges

/-- Lookup of one revision in the change's `revisions` map. -/
def lookupRevision (c : ChangeInfo) (sha : String) : Option RevisionInfo :=
  match c.revisions with
  | none => none
  | some revs => revs.lookup sha

/-- The commit-message lookup of index.ts lines 55-57:
`currentRevisionSha ? change.revisions?.[currentRevisionSha] : undefined`
then `revision?.commit`.  An absent *or empty* `current_revision` is falsy
in JS, hence yields no commit. -/
def currentCommit (c : ChangeInfo) : Option CommitInfo :=
  match c.current_revision with
  | none => none
  | some sha =>
    if sha == "" then none
    else
      match lookupRevision c sha with
      | none => none
      | some rev => rev.commit

/-- The metadata block shared by both rendering branches of index.ts
(lines 62-68 and 77-83): heading plus bullets for project, branch,
Change-Id, localized submitted timestamp and the Gerrit permalink.
`toLocale` is the runtime's `new Date(s).toLocaleString()`. -/
def changeHeader (serverUrl : String) (toLocale : String → String) (c : ChangeInfo) : String :=
  "---\n### " ++ c.subject ++
    ("\n* **Project:** \x60" ++ c.project) ++
    ("\x60\n* **Branch:** \x60" ++ c.branch) ++
    ("\x60\n* **Change-Id:** \x60" ++ c.change_id) ++
    ("\x60\n* **Submitted:** \x60" ++ toLocale c.submitted) ++
    ("\x60\n* **Gerrit Link:** <" ++ serverUrl) ++
    ("/c/" ++ c.project) ++ ("/+/" ++ c.change_id) ++ ">\n"

/-- The warning printed for a change whose commit message is unavailable
(index.ts line 76); it names the Change-Id and the subject. -/
def warnText (c : ChangeInfo) : String :=
  "Warning: Could not retrieve full commit message for Change-Id: " ++
    c.change_id ++ (" (Subject: \"" ++ c.subject) ++ "\")"

/-- Rendering of one change (the body of the `for` loop, index.ts
lines 52-88): the Markdown chunk appended for the change, and the warning
emitted when the commit message could not be retrieved.  Both branches are
total — neither throws. -/
def renderChange (serverUrl : String) (toLocale : String → String) (c : ChangeInfo) :
    String × Option String :=
  match currentCommit c with
  | some commit =>
    (changeHeader serverUrl toLocale c ++
        ("\x60\x60\x60\n" ++ commit.message) ++ "\n\x60\x60\x60\n\n", none)
  | none =>
    (changeHeader serverUrl toLocale c ++ "_Commit message could not be retrieved._\n\n",
      some (warnText c))

/-- Rendering of a list of changes in order: concatenated Markdown chunks
and the warnings in emission order. -/
def renderChanges (serverUrl : String) (toLocale : String → String) :
    List ChangeInfo → String × List String
  | [] => ("", [])
  | c :: cs =>
    let r := renderChange serverUrl toLocale c
    let rest := renderChanges serverUrl toLocale cs
    (r.1 ++ rest.1, r.2.toList ++ rest.2)

/-- The document header of index.ts lines 40-42.  `now` is the formatted
`new Date()` reading (`yyyy-MM-dd HH:mm:ss`) taken when the document is
built. -/
def mdHeader (daysBack : Nat) (now : String) : String :=
  "# Merged Gerrit CL Commit Messages (Last " ++ toString daysBack ++
    (" Days)\n\n" ++ "*Generated on: ") ++ now ++
    ("*\n\n" ++
      "This document lists the commit messages (CL summary descriptions) from merged Gerrit Code Reviews submitted in the last ") ++
    toString daysBack ++ " days.\n\n"

/-- The zero-results body line (index.ts line 46). -/
def noResultsLine : String :=
  "No merged changes found for the specified period.\n"

/-- The document body after the header: the fixed no-results line, or the
per-change sections in stable-sorted order. -/
def mdBody (serverUrl : String) (getTime : String → Int) (toLocale : String → String)
    (mergedChanges : List ChangeInfo) : String × List String :=
  if mergedChanges.length = 0 then (noResultsLine, [])
  else renderChanges serverUrl toLocale (sortChanges getTime mergedChanges)

/-- The document-building step of `main` (index.ts lines 40-92): the
Markdown written to the output file and the warnings printed along the way.
The source accumulates the same string with `+=`; by associativity of
string concatenation the final value is this header-plus-body
concatenation. -/
def buildMarkdown (serverUrl : String) (daysBack : Nat) (now : String)
    (getTime : String → Int) (toLocale : String → String)
    (mergedChanges : List ChangeInfo) : String × List String :=
  ((mdHeader daysBack now) ++ (mdBody serverUrl getTime toLocale mergedChanges).1,
    (mdBody serverUrl getTime toLocale mergedChanges).2)

/-! ## Helper lemmas -/

theorem isPrefixOf_self_append (l t : List Char) : l.isPrefixOf (l ++ t) = true := by
  induction l with
  | nil => simp [List.isPrefixOf]
  | cons c cs ih => simp [List.isPrefixOf, ih]

theorem strContainsAux_parts (pat a b : List Char) :
    strContainsAux pat (a ++ (pat ++ b)) = true := by
  induction a with
  | nil =>
    cases pat with
    | nil =>
      cases b with
      | nil => rfl
      | cons c cs => simp [strContainsAux, List.isPrefixOf]
    | cons p ps =>
      simp [strContainsAux, isPrefixOf_self_append]
  | cons x xs ih =>
    simp [strContainsAux, ih]

/-- A string built as `a ++ (pat ++ b)` contains `pat`. -/
theorem strContains_parts (a pat b : String) : strContains (a ++ (pat ++ b)) pat = true := by
  have h : (a ++ (pat ++ b)).data = a.data ++ (pat.data ++ b.data) := by
    simp [String.data_append]
  simp only [strContains, h]
  exact strContainsAux_parts pat.data a.data b.data

/-- The code's host-matching expression computes exactly the §4.1 rule. -/
theorem hostMatches_eq_spec (pattern targetHost : String) :
    hostMatches pattern targetHost = domainMatchesSpec pattern targetHost := by
  unfold hostMatches domainMatchesSpec
  cases h : jsStartsWith pattern "." with
  | false => simp [h]
  | true => simp [h, Bool.or_comm]

theorem mem_insertDesc {α : Type} (t : α → Int) (x y : α) (l : List α) :
    y ∈ insertDesc t x l ↔ y = x ∨ y ∈ l := by
  induction l with
  | nil => simp [insertDesc]
  | cons z zs ih =>
    by_cases h : t z ≤ t x
    · simp [insertDesc, h]
    · simp [insertDesc, h, ih]
      tauto

theorem pairwise_insertDesc {α : Type} (t : α → Int) (x : α) (l : List α)
    (hl : l.Pairwise (fun a b => t b ≤ t a)) :
    (insertDesc t x l).Pairwise (fun a b => t b ≤ t a) := by
  induction l with
  | nil => simp [insertDesc]
  | cons y ys ih =>
    rcases List.pairwise_cons.mp hl with ⟨hy, hys⟩
    by_cases h : t y ≤ t x
    · simp only [insertDesc, if_pos h]
      refine List.pairwise_cons.mpr ⟨?_, hl⟩
      intro z hz
      rcases List.mem_cons.mp hz with rfl | hz
      · exact h
      · exact le_trans (hy z hz) h
    · simp only [insertDesc, if_neg h]
      refine List.pairwise_cons.mpr ⟨?_, ih hys⟩
      intro z hz
      rcases (mem_insertDesc t x z ys).mp hz with rfl | hz
      · exact le_of_not_le h
      · exact hy z hz

theorem pairwise_stableSortDesc {α : Type} (t : α → Int) (l : List α) :
    (stableSortDesc t l).Pairwise (fun a b => t b ≤ t a) := by
  induction l with
  | nil => simp [stableSortDesc]
  | cons x xs ih => exact pairwise_insertDesc t x _ ih

theorem filter_insertDesc {α : Type} (t : α → Int) (x : α) (l : List α) (v : Int) :
    (insertDesc t x l).filter (fun y => t y == v) =
      if t x == v then x :: l.filter (fun y => t y == v)
      else l.filter (fun y => t y == v) := by
  induction l with
  | nil =>
    by_cases hv : t x = v <;>
      simp [insertDesc, List.filter_cons, hv]
  | cons y ys ih =>
    by_cases h : t y ≤ t x
    · simp only [insertDesc, if_pos h, List.filter_cons]
    · simp only [insertDesc, if_neg h, List.filter_cons, ih]
      by_cases hxv : t x = v
      · have hne : (t y == v) = false := by
          have hlt : t x < t y := lt_of_not_le h
          have : t y ≠ v := by omega
          simpa using this
        simp [hxv, hne]
      · have hxf : (t x == v) = false := by simpa using hxv
        simp [hxf]

theorem filter_stableSortDesc {α : Type} (t : α → Int) (l : List α) (v : Int) :
    (stableSortDesc t l).filter (fun y => t y == v) = l.filter (fun y => t y == v) := by
  induction l with
  | nil => rfl
  | cons x xs ih =>
    by_cases hv : t x = v <;>
      simp [stableSortDesc, filter_insertDesc, hv, ih, List.filter_cons]

/-! ## Pagination-loop lemmas -/

/-- Stepping the loop over an error response: the error is raised on that
request, carrying status, status text and body, and nothing else runs. -/
theorem fetchGo_err_step (limit : Nat) (status : Nat) (statusText body : String)
    (rest : List PageResp) (acc : List ChangeInfo) (start : Nat) :
    fetchGo limit (PageResp.err status statusText body :: rest) acc start =
      some ⟨[(start, acc.length)], Except.error ⟨status, statusText, body⟩⟩ := rfl

/-- Stepping the loop over a full page (`length = limit > 0`): the page is
appended, the offset advances by `limit`, and the loop continues. -/
theorem fetchGo_full_step (limit : Nat) (hpos : 0 < limit) (p : List ChangeInfo)
    (hp : p.length = limit) (rest : List PageResp) (acc : List ChangeInfo) (start : Nat) :
    fetchGo limit (PageResp.ok p :: rest) acc start =
      match fetchGo limit rest (acc ++ p) (start + limit) with
      | none => none
      | some out => some ⟨(start, acc.length) :: out.trace, out.result⟩ := by
  have h1 : (p.length == 0) = false := beq_eq_false_iff_ne.mpr (by omega)
  have h2 : (p.length == limit) = true := beq_iff_eq.mpr hp
  have h0 : 0 < p.length := by omega
  simp only [fetchGo, h1, h2, Bool.false_and, if_pos h0, hp]
  simp [hpos, hpos.ne']

/-- Stepping the loop over a short page (`length < limit`): the loop
terminates on that request and returns the accumulator plus the page. -/
theorem fetchGo_short_step (limit : Nat) (p : List ChangeInfo) (hp : p.length < limit)
    (rest : List PageResp) (acc : List ChangeInfo) (start : Nat) :
    fetchGo limit (PageResp.ok p :: rest) acc start =
      some ⟨[(start, acc.length)], Except.ok (acc ++ p)⟩ := by
  have h2 : (p.length == limit) = false := beq_eq_false_iff_ne.mpr (by omega)
  have hacc : (if 0 < p.length then acc ++ p else acc) = acc ++ p := by
    by_cases h0 : 0 < p.length
    · exact if_pos h0
    · have hnil : p = [] := List.length_eq_zero.mp (by omega)
      simp [hnil]
  simp only [fetchGo, h2, ite_self]
  simp [hacc]

/-- After any run of full pages, an error response makes the whole call
return that error (generalized over accumulator and offset for the
induction). -/
theorem fetchGo_err_after_full (limit : Nat) (hpos : 0 < limit)
    (status : Nat) (statusText body : String) (rest : List PageResp) :
    ∀ (fullPages : List (List ChangeInfo)) (acc : List ChangeInfo) (start : Nat),
      (∀ p ∈ fullPages, p.length = limit) →
      ∃ tr,
        fetchGo limit (fullPages.map PageResp.ok ++ PageResp.err status statusText body :: rest)
            acc start = some ⟨tr, Except.error ⟨status, statusText, body⟩⟩ ∧
        tr.length = fullPages.length + 1 := by
  intro fullPages
  induction fullPages with
  | nil =>
    intro acc start _
    exact ⟨[(start, acc.length)], rfl, rfl⟩
  | cons p ps ih =>
    intro acc start hf
    have hp : p.length = limit := hf p (by simp)
    rcases ih (acc ++ p) (start + limit) (fun q hq => hf q (by simp [hq])) with ⟨tr, htr, hlen⟩
    refine ⟨(start, acc.length) :: tr, ?_, by simp [hlen]⟩
    rw [List.map_cons, List.cons_append,
      fetchGo_full_step limit hpos p hp _ acc start, htr]

/-- Invariant of the pagination loop, generalized over accumulator and
offset: whenever `start` equals the accumulator length at entry, every
request recorded in the trace has its S parameter equal to the number of
changes accumulated when it was issued. -/
theorem fetchGo_start_inv (limit : Nat) :
    ∀ (resps : List PageResp) (acc : List ChangeInfo) (start : Nat) (out : FetchOutcome),
      start = acc.length → fetchGo limit resps acc start = some out →
      ∀ e ∈ out.trace, e.1 = e.2 := by
  intro resps
  induction resps with
  | nil =>
    intro acc start out h hfe
    simp [fetchGo] at hfe
  | cons r rest ih =>
    intro acc start out h hfe
    cases r with
    | err s st b =>
      rw [fetchGo_err_step] at hfe
      cases hfe
      intro e he
      simp only [List.mem_singleton] at he
      subst he
      exact h
    | ok changes =>
      by_cases hg : (changes.length == 0 && start == 0) = true
      · simp only [fetchGo, if_pos hg, Bool.false_eq_true, if_false] at hfe
        cases hfe
        intro e he
        simp only [List.mem_singleton] at he
        subst he
        exact h
      · by_cases hm : (changes.length == limit) = true
        · simp only [fetchGo, if_neg hg, hm, if_true] at hfe
          cases heqv : fetchGo limit rest
              (if 0 < changes.length then acc ++ changes else acc)
              (if 0 < changes.length then start + changes.length else start) with
          | none => rw [heqv] at hfe; cases hfe
          | some o =>
            rw [heqv] at hfe
            cases hfe
            intro e he
            rcases List.mem_cons.mp he with rfl | he2
            · exact h
            · refine ih _ _ o ?_ heqv e he2
              by_cases h0 : 0 < changes.length <;> simp [h0, h]
        · simp only [fetchGo, if_neg hg, if_neg hm] at hfe
          cases hfe
          intro e he
          simp only [List.mem_singleton] at he
          subst he
          exact h

/-! ## Sample values for concrete witness evaluations -/

/-- A sample change whose commit message resolves. -/
def sampleChange : ChangeInfo :=
  ⟨"proj~main~I1", "proj", "main", "I1", "Fix bug", "MERGED", "2024-01-02 10:00:00",
    some [("abc", ⟨some ⟨"abc", "Fix bug", "Fix bug\n\nDetails."⟩⟩)], some "abc"⟩

/-- A sample change whose current revision does not key into `revisions`. -/
def sampleChangeNoCommit : ChangeInfo :=
  ⟨"proj~main~I2", "proj", "main", "I2", "Other fix", "MERGED", "2024-01-03 10:00:00",
    some [], some "def0"⟩

/-- A concrete stand-in for `new Date(s).getTime()` in witnesses. -/
def sampleGetTime : String → Int := fun s => Int.ofNat s.length

/-- A concrete stand-in for `new Date(s).toLocaleString()` in witnesses. -/
def sampleLocale : String → String := fun s => s

/-! ## Claims -/

/-- Claim C1: pagination.  With pages of sizes `[limit, limit, k]`,
`k < limit`, the Fetcher issues exactly 3 requests (the trace has one entry
per request) and returns the `2*limit + k` changes in server order; with
one page of exactly `limit` followed by an empty page, it issues exactly 2
requests and terminates cleanly with just that page's changes. -/
theorem pagination_page_counts (limit : Nat) (hpos : 0 < limit)
    (p1 p2 p3 q : List ChangeInfo)
    (h1 : p1.length = limit) (h2 : p2.length = limit) (h3 : p3.length < limit)
    (hq : q.length = limit) :
    fetchMergedChanges limit [PageResp.ok p1, PageResp.ok p2, PageResp.ok p3] =
      some ⟨[(0, 0), (limit, limit), (limit + limit, limit + limit)],
        Except.ok (p1 ++ p2 ++ p3)⟩ ∧
    fetchMergedChanges limit [PageResp.ok q, PageResp.ok []] =
      some ⟨[(0, 0), (limit, limit)], Except.ok q⟩ := by
  constructor
  · unfold fetchMergedChanges
    rw [fetchGo_full_step limit hpos p1 h1,
      fetchGo_full_step limit hpos p2 h2,
      fetchGo_short_step limit p3 h3]
    simp [h1, h2]
  · unfold fetchMergedChanges
    rw [fetchGo_full_step limit hpos q hq, fetchGo_short_step limit [] (by simpa using hpos)]
    simp [hq]

theorem pagination_page_counts_witness :
    0 < 1 ∧
    fetchMergedChanges 1 [PageResp.ok [sampleChange], PageResp.ok [sampleChange],
        PageResp.ok []] =
      some ⟨[(0, 0), (1, 1), (1 + 1, 1 + 1)],
        Except.ok ([sampleChange] ++ [sampleChange] ++ [])⟩ ∧
    fetchMergedChanges 1 [PageResp.ok [sampleChange], PageResp.ok []] =
      some ⟨[(0, 0), (1, 1)], Except.ok [sampleChange]⟩ :=
  ⟨by decide,
    pagination_page_counts 1 (by decide) [sampleChange] [sampleChange] [] [sampleChange]
      rfl rfl (by decide) rfl⟩

/-- Claim C10: pagination-offset invariant.  At every iteration the
request's S parameter equals the number of changes accumulated so far: in
the trace of any completed call, every recorded (S, accumulated-count) pair
has equal components. -/
theorem pagination_offset_invariant (limit : Nat) (responses : List PageResp)
    (out : FetchOutcome) (hrun : fetchMergedChanges limit responses = some out) :
    ∀ e ∈ out.trace, e.1 = e.2 :=
  fetchGo_start_inv limit responses [] 0 out rfl hrun

theorem pagination_offset_invariant_witness :
    fetchMergedChanges 1 [PageResp.ok [sampleChange], PageResp.ok []] =
      some ⟨[(0, 0), (1, 1)], Except.ok [sampleChange]⟩ ∧
    (1, 1).1 = (1, 1).2 :=
  ⟨rfl,
    pagination_offset_invariant 1 [PageResp.ok [sampleChange], PageResp.ok []]
      ⟨[(0, 0), (1, 1)], Except.ok [sampleChange]⟩ rfl (1, 1) (by decide)⟩

/-- Claim C6: a non-success HTTP status on any page aborts the whole fetch
at once — one request per preceding full page plus the failing one, no
retry (the responses after the error are never consumed, whatever they
are), the raised error carries the status code, status text and body text,
and the error result carries no changes, so everything accumulated from
earlier pages is discarded. -/
theorem transport_error_aborts (limit : Nat) (hpos : 0 < limit)
    (fullPages : List (List ChangeInfo)) (hfull : ∀ p ∈ fullPages, p.length = limit)
    (status : Nat) (statusText body : String) (rest : List PageResp) :
    ∃ tr,
      fetchMergedChanges limit
          (fullPages.map PageResp.ok ++ PageResp.err status statusText body :: rest) =
        some ⟨tr, Except.error ⟨status, statusText, body⟩⟩ ∧
      tr.length = fullPages.length + 1 :=
  fetchGo_err_after_full limit hpos status statusText body rest fullPages [] 0 hfull

theorem transport_error_aborts_witness :
    0 < 1 ∧
    ∃ tr,
      fetchMergedChanges 1
          ([[sampleChange]].map PageResp.ok ++
            PageResp.err 500 "Internal Server Error" "boom" :: []) =
        some ⟨tr, Except.error ⟨500, "Internal Server Error", "boom"⟩⟩ ∧
      tr.length = [[sampleChange]].length + 1 :=
  ⟨by decide,
    transport_error_aborts 1 (by decide) [[sampleChange]] (by decide)
      500 "Internal Server Error" "boom" []⟩

/-- Claim C9: a response body starting with the 4-byte anti-sniffing marker
(`)]}'`) followed by a newline has the marker stripped before parsing —
any parser sees exactly the body with its first 4 characters removed (the
newline that followed the marker remains, which JSON parsing ignores as
whitespace) — and a body lacking the marker-plus-newline prefix is parsed
unchanged. -/
theorem xssi_strip_correct {α : Type} (parse : String → α) (rawText : String) :
    (xssiMarked rawText = true →
      parse (stripXssi rawText) = parse (jsSubstring rawText 4)) ∧
    (xssiMarked rawText = false → stripXssi rawText = rawText) := by
  constructor
  · intro hm
    rw [stripXssi, if_pos hm]
  · intro hm
    rw [stripXssi, if_neg]
    simp [hm]

theorem xssi_strip_correct_witness :
    xssiMarked ")]\x7d\x27\n[]" = true ∧
    String.length (stripXssi ")]\x7d\x27\n[]") =
      String.length (jsSubstring ")]\x7d\x27\n[]" 4) :=
  ⟨by decide, (xssi_strip_correct String.length ")]\x7d\x27\n[]").1 (by decide)⟩

/-- A pattern occurring as a suffix is contained. -/
theorem strContains_suffix (a pat : String) : strContains (a ++ pat) pat = true := by
  have h : (a ++ pat).data = a.data ++ (pat.data ++ []) := by simp [String.data_append]
  simp only [strContains, h]
  exact strContainsAux_parts pat.data a.data []

/-- Claim C2: a secrets-file line can yield the selected credential only if
it is not a comment (leading `#`), not blank, splits into exactly 7
tab-separated fields, and its domain-pattern matches the target host by the
spec's rule: without a leading dot, exact equality; with a leading dot, the
host equals the dot-stripped pattern or ends with the dotted pattern. -/
theorem credential_line_shape (targetHost line : String)
    (h : (lineCredential targetHost line).isSome = true) :
    jsStartsWith line "#" = false ∧
    jsTrim line ≠ "" ∧
    (jsSplit line '\t').length = 7 ∧
    domainMatchesSpec ((jsSplit line '\t').getD 0 "") targetHost = true := by
  by_cases hc : (jsStartsWith line "#" || jsTrim line == "") = true
  · simp only [lineCredential, if_pos hc, Option.isSome_none] at h
    exact absurd h (by simp)
  · have hor : (jsStartsWith line "#" || jsTrim line == "") = false := by
      simpa using hc
    rcases Bool.or_eq_false_iff.mp hor with ⟨ha, hb⟩
    simp only [lineCredential, if_neg hc] at h
    by_cases h7 : ((jsSplit line '\t').length != 7) = true
    · simp only [if_pos h7, Option.isSome_none] at h
      exact absurd h (by simp)
    · simp only [if_neg h7] at h
      by_cases hm : (hostMatches ((jsSplit line '\t').getD 0 "") targetHost &&
          ((jsSplit line '\t').getD 5 "") == "o") = true
      · have hmm : hostMatches ((jsSplit line '\t').getD 0 "") targetHost = true := by
          simp only [Bool.and_eq_true] at hm
          exact hm.1
        refine ⟨ha, beq_eq_false_iff_ne.mp hb, by simpa using h7, ?_⟩
        rw [← hostMatches_eq_spec]
        exact hmm
      · simp only [if_neg hm, Option.isSome_none] at h
        exact absurd h (by simp)

theorem credential_line_shape_witness :
    (lineCredential "example.com"
        "example.com\tTRUE\t/\tTRUE\t0\to\tuser=pass").isSome = true ∧
    (jsStartsWith "example.com\tTRUE\t/\tTRUE\t0\to\tuser=pass" "#" = false ∧
      jsTrim "example.com\tTRUE\t/\tTRUE\t0\to\tuser=pass" ≠ "" ∧
      (jsSplit "example.com\tTRUE\t/\tTRUE\t0\to\tuser=pass" '\t').length = 7 ∧
      domainMatchesSpec
        ((jsSplit "example.com\tTRUE\t/\tTRUE\t0\to\tuser=pass" '\t').getD 0 "")
        "example.com" = true) :=
  ⟨by decide, credential_line_shape "example.com" _ (by decide)⟩

/-- Claim C3 as stated fails on the code: for the matching record value
`user=tok=en`, the loader returns the token `tok` — JS `split('=', 2)`
keeps only the first two fields of the full split — not the whole remainder
`tok=en` after the first `=` that the claim predicts. -/
theorem credential_token_counterexample :
    getGerritCredentials "https://example.com" (some "example.com") "/home/u/.gitcookies"
        true "example.com\tTRUE\t/\tTRUE\t0\to\tuser=tok=en" =
      Except.ok ⟨"user", "tok"⟩ ∧
    findCredential "example.com" ["example.com\tTRUE\t/\tTRUE\t0\to\tuser=tok=en"] ≠
      some ⟨"user", "tok=en"⟩ :=
  ⟨rfl, by decide⟩

/-- Claim C3 (amended): the loader selects the first line that yields a
credential, and the returned username / token are the first and second
`=`-separated segments of the record's value (the token is the portion
between the first and the second `=`, or to the end when there is no second
`=`); records whose first or second segment is empty are skipped, so the
selected segments are both nonempty. -/
theorem credential_token_split (targetHost : String) (pre : List String)
    (line : String) (rest : List String) (u p : String)
    (hpre : ∀ l ∈ pre, lineCredential targetHost l = none)
    (hline : lineCredential targetHost line = some ⟨u, p⟩) :
    findCredential targetHost (pre ++ line :: rest) = some ⟨u, p⟩ ∧
    u = (jsSplit ((jsSplit line '\t').getD 6 "") '=').getD 0 "" ∧
    p = (jsSplit ((jsSplit line '\t').getD 6 "") '=').getD 1 "" ∧
    u ≠ "" ∧ p ≠ "" := by
  have hfind : ∀ (pr : List String), (∀ l ∈ pr, lineCredential targetHost l = none) →
      findCredential targetHost (pr ++ line :: rest) = some ⟨u, p⟩ := by
    intro pr
    induction pr with
    | nil =>
      intro _
      simp [findCredential, hline]
    | cons l ls ih =>
      intro hp2
      have hl : lineCredential targetHost l = none := hp2 l (by simp)
      have ht := ih (fun x hx => hp2 x (by simp [hx]))
      simpa [findCredential, hl] using ht
  refine ⟨hfind pre hpre, ?_⟩
  by_cases hc : (jsStartsWith line "#" || jsTrim line == "") = true
  · simp only [lineCredential, if_pos hc] at hline
    exact absurd hline (by simp)
  · simp only [lineCredential, if_neg hc] at hline
    by_cases h7 : ((jsSplit line '\t').length != 7) = true
    · simp only [if_pos h7] at hline
      exact absurd hline (by simp)
    · simp only [if_neg h7] at hline
      by_cases hm : (hostMatches ((jsSplit line '\t').getD 0 "") targetHost &&
          ((jsSplit line '\t').getD 5 "") == "o") = true
      · simp only [if_pos hm] at hline
        by_cases hup : (((jsSplit ((jsSplit line '\t').getD 6 "") '=').getD 0 "" != "") &&
            ((jsSplit ((jsSplit line '\t').getD 6 "") '=').getD 1 "" != "")) = true
        · simp only [if_pos hup] at hline
          have hinj := Option.some.inj hline
          have hu : (jsSplit ((jsSplit line '\t').getD 6 "") '=').getD 0 "" = u :=
            congrArg Credential.username hinj
          have hpw : (jsSplit ((jsSplit line '\t').getD 6 "") '=').getD 1 "" = p :=
            congrArg Credential.httpPassword hinj
          simp only [Bool.and_eq_true, bne_iff_ne] at hup
          exact ⟨hu.symm, hpw.symm, hu ▸ hup.1, hpw ▸ hup.2⟩
        · simp only [if_neg hup] at hline
          exact absurd hline (by simp)
      · simp only [if_neg hm] at hline
        exact absurd hline (by simp)

theorem credential_token_split_witness :
    findCredential "example.com"
        (["# comment"] ++ "example.com\tTRUE\t/\tTRUE\t0\to\tuser=tok=en" :: []) =
      some ⟨"user", "tok"⟩ ∧
    ("user" : String) =
      (jsSplit ((jsSplit "example.com\tTRUE\t/\tTRUE\t0\to\tuser=tok=en" '\t').getD 6 "")
          '=').getD 0 "" ∧
    ("tok" : String) =
      (jsSplit ((jsSplit "example.com\tTRUE\t/\tTRUE\t0\to\tuser=tok=en" '\t').getD 6 "")
          '=').getD 1 "" ∧
    ("user" : String) ≠ "" ∧ ("tok" : String) ≠ "" :=
  credential_token_split "example.com" ["# comment"]
    "example.com\tTRUE\t/\tTRUE\t0\to\tuser=tok=en" [] "user" "tok"
    (by decide) (by decide)

/-- Claim C4: for every non-empty change set, the rendered order (the
sorted list the renderer iterates over) is non-increasing by submission
timestamp, and changes with equal timestamps keep their original relative
order — filtering the sorted list to any one timestamp value gives exactly
the original list so filtered (stability). -/
theorem sort_desc_stable (getTime : String → Int) (l : List ChangeInfo) (_hne : l ≠ []) :
    (sortChanges getTime l).Pairwise
        (fun a b => getTime b.submitted ≤ getTime a.submitted) ∧
    ∀ v : Int, (sortChanges getTime l).filter (fun c => getTime c.submitted == v) =
      l.filter (fun c => getTime c.submitted == v) :=
  ⟨pairwise_stableSortDesc _ l, fun v => filter_stableSortDesc _ l v⟩

theorem sort_desc_stable_witness :
    ([sampleChange, sampleChangeNoCommit] ≠ []) ∧
    (sortChanges sampleGetTime [sampleChange, sampleChangeNoCommit]).Pairwise
        (fun a b => sampleGetTime b.submitted ≤ sampleGetTime a.submitted) ∧
    (sortChanges sampleGetTime [sampleChange, sampleChangeNoCommit]).filter
        (fun c => sampleGetTime c.submitted == 5) =
      [sampleChange, sampleChangeNoCommit].filter
        (fun c => sampleGetTime c.submitted == 5) :=
  ⟨by decide,
    (sort_desc_stable sampleGetTime [sampleChange, sampleChangeNoCommit] (by decide)).1,
    (sort_desc_stable sampleGetTime [sampleChange, sampleChangeNoCommit] (by decide)).2 5⟩

/-- Claim C5: a change whose current revision does not key into its
revisions map, or whose revision carries no commit object, renders the same
metadata bullets (`changeHeader`) followed by the literal placeholder line,
together with a warning that contains the affected Change-Id and subject;
`renderChange` is a total function, so this cannot throw or abort the
run. -/
theorem missing_commit_placeholder (serverUrl : String) (toLocale : String → String)
    (c : ChangeInfo)
    (h : ∀ sha rev, c.current_revision = some sha → lookupRevision c sha = some rev →
      rev.commit = none) :
    renderChange serverUrl toLocale c =
      (changeHeader serverUrl toLocale c ++ "_Commit message could not be retrieved._\n\n",
        some (warnText c)) ∧
    strContains (warnText c) c.change_id = true ∧
    strContains (warnText c) c.subject = true := by
  have hcc : currentCommit c = none := by
    unfold currentCommit
    cases hcr : c.current_revision with
    | none => rfl
    | some sha =>
      by_cases hsh : (sha == "") = true
      · simp [hsh]
      · cases hlu : lookupRevision c sha with
        | none => simp [hlu, hsh]
        | some rev => simp [hlu, hsh, h sha rev hcr hlu]
  refine ⟨?_, ?_, ?_⟩
  · simp [renderChange, hcc]
  · have hgrp : warnText c =
        "Warning: Could not retrieve full commit message for Change-Id: " ++
          (c.change_id ++ (" (Subject: \"" ++ c.subject ++ "\")")) := by
      simp [warnText, String.append_assoc]
    rw [hgrp]
    exact strContains_parts _ _ _
  · have hgrp : warnText c =
        ("Warning: Could not retrieve full commit message for Change-Id: " ++
            (c.change_id ++ " (Subject: \"")) ++
          (c.subject ++ "\")") := by
      simp [warnText, String.append_assoc]
    rw [hgrp]
    exact strContains_parts _ _ _

theorem missing_commit_placeholder_witness :
    renderChange "https://gerrit.example.com" sampleLocale sampleChangeNoCommit =
      (changeHeader "https://gerrit.example.com" sampleLocale sampleChangeNoCommit ++
          "_Commit message could not be retrieved._\n\n",
        some (warnText sampleChangeNoCommit)) ∧
    strContains (warnText sampleChangeNoCommit) sampleChangeNoCommit.change_id = true ∧
    strContains (warnText sampleChangeNoCommit) sampleChangeNoCommit.subject = true :=
  missing_commit_placeholder "https://gerrit.example.com" sampleLocale sampleChangeNoCommit
    (by
      intro sha rev hsha hrev
      have hs : sha = "def0" := by
        simp [sampleChangeNoCommit] at hsha
        exact hsha.symm
      subst hs
      simp [lookupRevision, sampleChangeNoCommit] at hrev)

/-- Claim C7 as stated fails on the code: with an unparsable server URL the
loader does fail, but that error message contains neither a resolved target
host nor the example record shape — it has no `<username>=<password>`
fragment and no tab character at all. -/
theorem config_error_counterexample :
    getGerritCredentials "not a url" none "/home/user/.gitcookies" true "" =
      Except.error (invalidUrlMsg "not a url") ∧
    strContains (invalidUrlMsg "not a url") "<username>=<password>" = false ∧
    strContains (invalidUrlMsg "not a url") "\t" = false :=
  ⟨rfl, by decide, by decide⟩

/-- Claim C7 (amended): the loader fails exactly when the URL yields no
hostname, the secrets file does not exist, or no record matches; the
missing-file and no-record messages contain the resolved target host and
the example record shape, while the unparsable-URL message contains the
offending URL (no host is resolvable there and no example is printed). -/
theorem config_error_cases (gerritServerUrl gitcookiesPath content host : String) :
    (getGerritCredentials gerritServerUrl none gitcookiesPath true content =
        Except.error (invalidUrlMsg gerritServerUrl) ∧
      strContains (invalidUrlMsg gerritServerUrl) gerritServerUrl = true) ∧
    (getGerritCredentials gerritServerUrl (some host) gitcookiesPath false content =
        Except.error (missingFileMsg gitcookiesPath host) ∧
      strContains (missingFileMsg gitcookiesPath host) host = true ∧
      strContains (missingFileMsg gitcookiesPath host) (exampleLine host) = true) ∧
    (findCredential host (jsSplit content '\n') = none →
      getGerritCredentials gerritServerUrl (some host) gitcookiesPath true content =
        Except.error (notFoundMsg host gerritServerUrl gitcookiesPath) ∧
      strContains (notFoundMsg host gerritServerUrl gitcookiesPath) host = true ∧
      strContains (notFoundMsg host gerritServerUrl gitcookiesPath)
        (exampleLine host) = true) ∧
    (∀ cred, findCredential host (jsSplit content '\n') = some cred →
      getGerritCredentials gerritServerUrl (some host) gitcookiesPath true content =
        Except.ok cred) := by
  refine ⟨⟨rfl, ?_⟩, ⟨rfl, ?_, ?_⟩, ?_, ?_⟩
  · have hgrp : invalidUrlMsg gerritServerUrl =
        "Invalid GERRIT_SERVER_URL format: " ++
          (gerritServerUrl ++ ". Cannot parse hostname.") := by
      simp [invalidUrlMsg, String.append_assoc]
    rw [hgrp]
    exact strContains_parts _ _ _
  · have hgrp : missingFileMsg gitcookiesPath host =
        ("Error: .gitcookies file not found at " ++
            (gitcookiesPath ++
              ".\nPlease ensure it exists and is configured for your Gerrit server.\nExample line for ")) ++
          (host ++ (":\n" ++ exampleLine host)) := by
      simp [missingFileMsg, String.append_assoc]
    rw [hgrp]
    exact strContains_parts _ _ _
  · have hgrp : missingFileMsg gitcookiesPath host =
        ("Error: .gitcookies file not found at " ++
            (gitcookiesPath ++
              (".\nPlease ensure it exists and is configured for your Gerrit server.\nExample line for " ++
                (host ++ ":\n")))) ++
          exampleLine host := by
      simp [missingFileMsg, String.append_assoc]
    rw [hgrp]
    exact strContains_suffix _ _
  · intro hnone
    refine ⟨?_, ?_, ?_⟩
    · simp [getGerritCredentials, hnone]
    · have hgrp : notFoundMsg host gerritServerUrl gitcookiesPath =
          "Credentials for " ++
            (host ++
              (" (from " ++ gerritServerUrl ++
                (") not found in " ++ gitcookiesPath ++
                  (" with cookie name \x27o\x27.\nEnsure a line exists like: " ++
                    exampleLine host)))) := by
        simp [notFoundMsg, String.append_assoc]
      rw [hgrp]
      exact strContains_parts _ _ _
    · have hgrp : notFoundMsg host gerritServerUrl gitcookiesPath =
          ("Credentials for " ++
              (host ++
                (" (from " ++ gerritServerUrl ++
                  (") not found in " ++ gitcookiesPath ++
                    " with cookie name \x27o\x27.\nEnsure a line exists like: ")))) ++
            exampleLine host := by
        simp [notFoundMsg, String.append_assoc]
      rw [hgrp]
      exact strContains_suffix _ _
  · intro cred hcred
    simp [getGerritCredentials, hcred]

theorem config_error_cases_witness :
    findCredential "example.com" (jsSplit "" '\n') = none ∧
    (getGerritCredentials "https://example.com" (some "example.com") "/h/.gitcookies"
          true "" =
        Except.error (notFoundMsg "example.com" "https://example.com" "/h/.gitcookies") ∧
      strContains (notFoundMsg "example.com" "https://example.com" "/h/.gitcookies")
        "example.com" = true ∧
      strContains (notFoundMsg "example.com" "https://example.com" "/h/.gitcookies")
        (exampleLine "example.com") = true) :=
  ⟨by decide,
    (config_error_cases "https://example.com" "/h/.gitcookies" "" "example.com").2.2.1
      (by decide)⟩

/-- Claim C8 as stated fails on the code: the document embeds the wall
clock via the `*Generated on: ...*` line, so two runs of the
document-building step over the same fetched changes produce different
bytes whenever their clock readings differ. -/
theorem render_clock_counterexample :
    buildMarkdown "https://gerrit.example.com" 180 "2024-01-01 00:00:00" sampleGetTime
        sampleLocale [] ≠
      buildMarkdown "https://gerrit.example.com" 180 "2024-01-01 00:00:01" sampleGetTime
        sampleLocale [] := by
  intro h
  exact absurd (congrArg Prod.fst h) (by decide)

/-- Claim C8 (amended): the document-building step is a pure function of
the fetched changes, the generation-time reading and the runtime Date
functions — with the same clock reading it is byte-identical on identical
input — and the clock reading affects only the header: the rest of the
document is `mdBody`, which does not depend on `now`. -/
theorem render_deterministic (serverUrl : String) (daysBack : Nat)
    (now1 now2 : String) (getTime : String → Int) (toLocale : String → String)
    (cs1 cs2 : List ChangeInfo) (hnow : now1 = now2) (hcs : cs1 = cs2) :
    buildMarkdown serverUrl daysBack now1 getTime toLocale cs1 =
      buildMarkdown serverUrl daysBack now2 getTime toLocale cs2 ∧
    (buildMarkdown serverUrl daysBack now1 getTime toLocale cs1).1 =
      mdHeader daysBack now1 ++ (mdBody serverUrl getTime toLocale cs1).1 := by
  subst hnow
  subst hcs
  exact ⟨rfl, rfl⟩

theorem render_deterministic_witness :
    ("2024-01-01 00:00:00" : String) = "2024-01-01 00:00:00" ∧
    ([sampleChange] : List ChangeInfo) = [sampleChange] ∧
    (buildMarkdown "https://gerrit.example.com" 180 "2024-01-01 00:00:00" sampleGetTime
          sampleLocale [sampleChange] =
        buildMarkdown "https://gerrit.example.com" 180 "2024-01-01 00:00:00" sampleGetTime
          sampleLocale [sampleChange] ∧
      (buildMarkdown "https://gerrit.example.com" 180 "2024-01-01 00:00:00" sampleGetTime
          sampleLocale [sampleChange]).1 =
        mdHeader 180 "2024-01-01 00:00:00" ++
          (mdBody "https://gerrit.example.com" sampleGetTime sampleLocale
            [sampleChange]).1) :=
  ⟨rfl, rfl,
    render_deterministic "https://gerrit.example.com" 180 "2024-01-01 00:00:00"
      "2024-01-01 00:00:00" sampleGetTime sampleLocale [sampleChange] [sampleChange]
      rfl rfl⟩
